import Mathlib

/-!
Verification of the LOXProgramming repository (clox: single-pass compiler and
stack-based bytecode VM for a Lox-family language).

Shallow embedding of the C sources:
  src/clox/src/scanner.c   -> `Clox.scanToken` and helpers
  src/clox/src/chunk.c/h   -> `Clox.Chunk`, opcodes, `Clox.writeChunk`, `Clox.addConstant`
  src/clox/src/value.c/h   -> `Clox.Value`, `Clox.valuesEqual`
  src/clox/src/object.c/h  -> `Clox.ObjString` (allocation identity modelled by `id`)
  src/clox/src/compiler.c  -> `Clox.parseGo` (mutual recursion defunctionalised with
                              `Clox.PFn`, fuel-indexed), `Clox.compileGo`
  src/clox/src/vm.c        -> `Clox.stepVM`, `Clox.runF`, `Clox.interpretWith`

Modelling conventions:
  * IEEE-754 doubles are modelled by `Rat`.  Every numeric literal and every
    arithmetic step exercised by a theorem in this file involves small integers,
    on which double arithmetic is exact; NaN/infinities/rounding are not
    exercised.
  * Machine pointers (`vm.ip`, the operand-stack pointer) become `Nat` offsets;
    any access outside the modelled object (instruction fetch outside `code`,
    `pop`/`peek` on an empty stack, moving `ip` before the start of `code`)
    is a `StepRes.stuck` outcome, marking behaviour that is undefined in C.
  * C `int` arithmetic that can go negative (jump displacements) is done in
    `Int`; the byte encoding `(x >> 8) & 0xff, x & 0xff` of a (possibly
    negative) `int` equals the base-256 digits of `x mod 2^16`
    (arithmetic shift on two's complement), which is how `encode16` writes it.
  * Each `copyString` call allocates a fresh `ObjString`; allocation identity
    (C pointer identity) is modelled by the `id` field, drawn from a counter in
    the compiler state.  Pointer equality is modelled as equality of the whole
    structure: distinct allocations have distinct `id`s, and equal structures
    denote the same allocation.
  * Diagnostic text of compile errors is not modelled (only the
    `hadError`/`panicMode` flags, which is all the compiler's control flow
    reads); runtime-error messages are modelled exactly, since the spec pins
    their text.
-/

namespace Clox

/-! ## Tokens (scanner.h / scanner.c) -/

inductive TokenType where
  | LEFT_PAREN | RIGHT_PAREN | LEFT_BRACE | RIGHT_BRACE
  | COMMA | DOT | MINUS | PLUS | SEMICOLON | SLASH | STAR
  | BANG | BANG_EQUAL | EQUAL | EQUAL_EQUAL
  | GREATER | GREATER_EQUAL | LESS | LESS_EQUAL
  | IDENTIFIER | STRING | NUMBER
  | AND | CLASS | ELSE | FALSE | FOR | FUN | IF | NIL | OR
  | PRINT | RETURN | SUPER | THIS | TRUE | VAR | WHILE
  | ERROR | EOF
deriving DecidableEq, Repr

structure Token where
  ttype : TokenType
  lexeme : List Char          -- the byte range [start, start+length) of the C token
  line : Nat
deriving DecidableEq, Repr

/-- scanner.c `isAlpha`. -/
def isAlpha (c : Char) : Bool :=
  ('a' ≤ c && c ≤ 'z') || ('A' ≤ c && c ≤ 'Z') || c = '_'

/-- scanner.c `isDigit`. -/
def isDigit (c : Char) : Bool :=
  '0' ≤ c && c ≤ '9'

/-- scanner.c `skipWhitespace`.  The `Bool` argument is `true` while inside a
`//` comment (the inner `while (peek() != '\n' && !isAtEnd()) advance();`
fused with the outer loop; the terminating newline is consumed by the outer
loop's `'\n'` case, incrementing `line`, exactly as in the source). -/
def skipWS : Bool → List Char → Nat → List Char × Nat
  | _, [], line => ([], line)
  | true, '\n' :: rest, line => skipWS false rest (line + 1)
  | true, _ :: rest, line => skipWS true rest line
  | false, ' ' :: rest, line => skipWS false rest line
  | false, '\r' :: rest, line => skipWS false rest line
  | false, '\t' :: rest, line => skipWS false rest line
  | false, '\n' :: rest, line => skipWS false rest (line + 1)
  | false, '/' :: '/' :: rest, line => skipWS true rest line
  | false, src, line => (src, line)

/-- scanner.c `identifierType`: the character trie is extensionally a
comparison of the whole lexeme against each keyword. -/
def identifierType (lex : List Char) : TokenType :=
  if lex = "and".toList then .AND
  else if lex = "class".toList then .CLASS
  else if lex = "else".toList then .ELSE
  else if lex = "false".toList then .FALSE
  else if lex = "for".toList then .FOR
  else if lex = "fun".toList then .FUN
  else if lex = "if".toList then .IF
  else if lex = "nil".toList then .NIL
  else if lex = "or".toList then .OR
  else if lex = "print".toList then .PRINT
  else if lex = "return".toList then .RETURN
  else if lex = "super".toList then .SUPER
  else if lex = "this".toList then .THIS
  else if lex = "true".toList then .TRUE
  else if lex = "var".toList then .VAR
  else if lex = "while".toList then .WHILE
  else .IDENTIFIER

/-- scanner.c `string()` body: consume characters up to the closing quote,
counting newlines; `none` when the source ends first (unterminated). -/
def scanStringBody : List Char → Nat → Option (List Char × List Char × Nat)
  | [], _ => none
  | '"' :: rest, line => some ([], rest, line)
  | c :: rest, line =>
      let line' := if c = '\n' then line + 1 else line
      match scanStringBody rest line' with
      | none => none
      | some (content, rest', lineEnd) => some (c :: content, rest', lineEnd)

/-- Scanner state: the not-yet-consumed suffix of the source and the current
line (the C scanner's `current` pointer and `line`). -/
structure SState where
  src : List Char
  line : Nat
deriving DecidableEq, Repr

def mkToken (t : TokenType) (lex : List Char) (line : Nat) : Token :=
  ⟨t, lex, line⟩

/-- scanner.c `scanToken`. -/
def scanToken (s : SState) : Token × SState :=
  let (src, line) := skipWS false s.src s.line
  match src with
  | [] => (mkToken .EOF [] line, ⟨[], line⟩)
  | c :: rest =>
    if isAlpha c then
      -- identifier(): while (isAlpha(peek()) || isDigit(peek())) advance();
      let body := rest.takeWhile (fun d => isAlpha d || isDigit d)
      let lex := c :: body
      (mkToken (identifierType lex) lex line, ⟨rest.drop body.length, line⟩)
    else if isDigit c then
      -- number(): digits, then optional '.' followed by at least one digit
      let intPart := rest.takeWhile isDigit
      let afterInt := rest.drop intPart.length
      match afterInt with
      | '.' :: d :: _ =>
        if isDigit d then
          let fracPart := (afterInt.drop 1).takeWhile isDigit
          let lex := c :: intPart ++ '.' :: fracPart
          (mkToken .NUMBER lex line, ⟨(afterInt.drop 1).drop fracPart.length, line⟩)
        else
          (mkToken .NUMBER (c :: intPart) line, ⟨afterInt, line⟩)
      | _ =>
        (mkToken .NUMBER (c :: intPart) line, ⟨afterInt, line⟩)
    else if c = '(' then (mkToken .LEFT_PAREN [c] line, ⟨rest, line⟩)
    else if c = ')' then (mkToken .RIGHT_PAREN [c] line, ⟨rest, line⟩)
    else if c = '{' then (mkToken .LEFT_BRACE [c] line, ⟨rest, line⟩)
    else if c = '}' then (mkToken .RIGHT_BRACE [c] line, ⟨rest, line⟩)
    else if c = ';' then (mkToken .SEMICOLON [c] line, ⟨rest, line⟩)
    else if c = ',' then (mkToken .COMMA [c] line, ⟨rest, line⟩)
    else if c = '.' then (mkToken .DOT [c] line, ⟨rest, line⟩)
    else if c = '-' then (mkToken .MINUS [c] line, ⟨rest, line⟩)
    else if c = '+' then (mkToken .PLUS [c] line, ⟨rest, line⟩)
    else if c = '/' then (mkToken .SLASH [c] line, ⟨rest, line⟩)
    else if c = '*' then (mkToken .STAR [c] line, ⟨rest, line⟩)
    else if c = '!' then
      match rest with
      | '=' :: rest' => (mkToken .BANG_EQUAL [c, '='] line, ⟨rest', line⟩)
      | _ => (mkToken .BANG [c] line, ⟨rest, line⟩)
    else if c = '=' then
      match rest with
      | '=' :: rest' => (mkToken .EQUAL_EQUAL [c, '='] line, ⟨rest', line⟩)
      | _ => (mkToken .EQUAL [c] line, ⟨rest, line⟩)
    else if c = '<' then
      match rest with
      | '=' :: rest' => (mkToken .LESS_EQUAL [c, '='] line, ⟨rest', line⟩)
      | _ => (mkToken .LESS [c] line, ⟨rest, line⟩)
    else if c = '>' then
      match rest with
      | '=' :: rest' => (mkToken .GREATER_EQUAL [c, '='] line, ⟨rest', line⟩)
      | _ => (mkToken .GREATER [c] line, ⟨rest, line⟩)
    else if c = '"' then
      match scanStringBody rest line with
      | none => (mkToken .ERROR "Unterminated string.".toList line, ⟨[], line⟩)
      | some (content, rest', line') =>
        (mkToken .STRING ('"' :: content ++ ['"']) line', ⟨rest', line'⟩)
    else (mkToken .ERROR "Unexpected character.".toList line, ⟨rest, line⟩)

/-! ## Values and chunks (value.h / object.h / chunk.h / chunk.c) -/

/-- object.h `ObjString`: `id` models the allocation (C pointer) identity;
`chars` the byte content.  Every `copyString` yields a fresh `id`. -/
structure ObjString where
  id : Nat
  chars : List Char
deriving DecidableEq, Repr

/-- value.h `Value`: tagged union with four variants. -/
inductive Value where
  | vbool (b : Bool)
  | vnil
  | num (q : Rat)
  | obj (s : ObjString)
deriving DecidableEq, Repr

/-- value.c `valuesEqual`: tags must agree; `VAL_OBJ` compares pointers,
modelled as structure equality (see header comment). -/
def valuesEqual : Value → Value → Bool
  | .vbool a, .vbool b => a == b
  | .vnil, .vnil => true
  | .num a, .num b => a == b
  | .obj a, .obj b => a == b
  | _, _ => false

/-- vm.c `isTruthy`. -/
def isTruthy : Value → Bool
  | .vnil => false
  | .vbool b => b
  | _ => true

/-- chunk.h `OpCode` enumeration values, in declaration order. -/
def opConstant : Nat := 0
def opNil : Nat := 1
def opTrue : Nat := 2
def opFalse : Nat := 3
def opPop : Nat := 4
def opGetLocal : Nat := 5
def opSetLocal : Nat := 6
def opGetGlobal : Nat := 7
def opDefineGlobal : Nat := 8
def opSetGlobal : Nat := 9
def opEqual : Nat := 10
def opGreater : Nat := 11
def opLess : Nat := 12
def opAdd : Nat := 13
def opSubtract : Nat := 14
def opMultiply : Nat := 15
def opDivide : Nat := 16
def opNot : Nat := 17
def opNegate : Nat := 18
def opPrint : Nat := 19
def opJump : Nat := 20
def opJumpIfFalse : Nat := 21
def opLoop : Nat := 22
def opReturn : Nat := 23

/-- chunk.h `Chunk` (capacity bookkeeping of the growable arrays elided:
lists grow without bound, as `writeChunk`'s realloc guarantees). -/
structure Chunk where
  code : List Nat
  lines : List Nat
  constants : List Value
deriving DecidableEq, Repr

def initChunk : Chunk := ⟨[], [], []⟩

/-- chunk.c `writeChunk`. -/
def writeChunk (c : Chunk) (byte : Nat) (line : Nat) : Chunk :=
  { c with code := c.code ++ [byte], lines := c.lines ++ [line] }

/-- chunk.c `addConstant`: appends and returns the new value's index
(`constants.count - 1` after the write, i.e. the old length). -/
def addConstant (c : Chunk) (v : Value) : Chunk × Nat :=
  ({ c with constants := c.constants ++ [v] }, c.constants.length)

/-- The byte pair `((x >> 8) & 0xff, x & 0xff)` that compiler.c writes for a
16-bit operand, where `x` is a C `int` (arithmetic shift on two's
complement); equal to the base-256 digits of `x mod 2^16`. -/
def encode16 (x : Int) : Nat × Nat :=
  let u := (x.emod 65536).toNat
  (u / 256, u % 256)

end Clox

namespace Clox

/-! ## Compiler (compiler.c) -/

/-- compiler.c `Parser` plus the module-level `compilingChunk` and the
`copyString` allocation counter (fresh `ObjString.id`s). -/
structure CState where
  scanner : SState
  current : Token
  previous : Token
  hadError : Bool
  panicMode : Bool
  chunk : Chunk
  nextId : Nat
deriving Repr

/-- compiler.c `errorAt`: when already panicking, returns without touching the
flags; otherwise sets both.  The token and message feed only the (unmodelled)
stderr diagnostic. -/
def errorAt (_tok : Token) (st : CState) : CState :=
  if st.panicMode then st else { st with panicMode := true, hadError := true }

/-- compiler.c `errorAtCurrent`. -/
def errorAtCurrent (st : CState) : CState := errorAt st.current st

/-- compiler.c `advance`: shift `current` into `previous`, then scan tokens,
reporting and skipping `ERROR` tokens.  Every `ERROR` token consumes at least
one source character, so `src.length + 1` fuel always suffices. -/
def advanceLoop : Nat → CState → CState
  | 0, st => st
  | f + 1, st =>
    let (tok, sc') := scanToken st.scanner
    let st' := { st with scanner := sc', current := tok }
    if tok.ttype = .ERROR then advanceLoop f (errorAtCurrent st') else st'

def advance (st : CState) : CState :=
  advanceLoop (st.scanner.src.length + 1) { st with previous := st.current }

/-- compiler.c `match`. -/
def matchTok (t : TokenType) (st : CState) : Bool × CState :=
  if st.current.ttype = t then (true, advance st) else (false, st)

/-- compiler.c `consume` (the message feeds only the unmodelled diagnostic). -/
def consume (t : TokenType) (st : CState) : CState :=
  if st.current.ttype = t then advance st else errorAtCurrent st

/-- compiler.c `emitByte` acting on the compiling chunk in the state. -/
def emitByteC (byte line : Nat) (st : CState) : CState :=
  { st with chunk := writeChunk st.chunk byte line }

/-- compiler.c `emitBytes`. -/
def emitBytesC (b1 b2 line : Nat) (st : CState) : CState :=
  emitByteC b2 line (emitByteC b1 line st)

/-- compiler.c `emitConstant`: `emitBytes(OP_CONSTANT, (uint8_t)addConstant(...))`;
the C byte cast is the `% 256`. -/
def emitConstant (c : Chunk) (v : Value) (line : Nat) : Chunk :=
  let (c', idx) := addConstant c v
  writeChunk (writeChunk c' opConstant line) (idx % 256) line

def emitConstantC (v : Value) (line : Nat) (st : CState) : CState :=
  { st with chunk := emitConstant st.chunk v line }

/-- compiler.c `emitJump`: opcode plus `0xff 0xff` placeholder; returns
`count - 2`, the offset of the placeholder. -/
def emitJumpC (op line : Nat) (st : CState) : CState × Nat :=
  let st' := emitByteC 0xff line (emitByteC 0xff line (emitByteC op line st))
  (st', st'.chunk.code.length - 2)

/-- compiler.c `patchJump`: `jump = count - offset - 2`, written big-endian. -/
def patchJump (offset : Nat) (c : Chunk) : Chunk :=
  let jump : Int := (c.code.length : Int) - (offset : Int) - 2
  let (hi, lo) := encode16 jump
  { c with code := (c.code.set offset hi).set (offset + 1) lo }

def patchJumpC (offset : Nat) (st : CState) : CState :=
  { st with chunk := patchJump offset st.chunk }

/-- compiler.c `identifierConstant`: `copyString` allocates a fresh
`ObjString` (fresh `id`), which `addConstant` appends; the result is
cast to `uint8_t` (`% 256`). -/
def identifierConstant (name : Token) (st : CState) : Nat × CState :=
  let str : ObjString := ⟨st.nextId, name.lexeme⟩
  let (c', idx) := addConstant st.chunk (.obj str)
  (idx % 256, { st with chunk := c', nextId := st.nextId + 1 })

def digitVal (c : Char) : Nat := c.toNat - 48

def digitsToNat (l : List Char) : Nat := l.foldl (fun a c => 10 * a + digitVal c) 0

/-- The value of a NUMBER token's lexeme (digits, optional `.` digits).
compiler.c calls `strtod(parser.previous.start, NULL)`; on the lexeme shapes
the scanner produces this is exact decimal conversion (strtod would also
accept an exponent suffix the scanner never tokenises; not modelled, and not
exercised by any theorem below). -/
def parseNumber (lex : List Char) : Rat :=
  let ip := lex.takeWhile isDigit
  let rest := lex.drop ip.length
  match rest with
  | '.' :: fr => (digitsToNat ip : Rat) + (digitsToNat fr : Rat) / ((10 : Rat) ^ fr.length)
  | _ => (digitsToNat ip : Rat)

/-- Tags for the mutually recursive parsing functions of compiler.c
(`parsePrecedence1`, `expression` split into its head call and its binary
operator loop, `declaration`, and the block-statement loop inside
`declaration`), defunctionalised into one fuel-indexed function. -/
inductive PFn where
  | pprim   -- parsePrecedence1
  | pexpr   -- expression
  | pbinop  -- the while(1) operator loop inside expression
  | pdecl   -- declaration
  | pblock  -- the declaration* loop of a brace block
deriving DecidableEq, Repr

/-- compiler.c parsing functions; `none` means the fuel ran out (a run that
completes for some fuel completes identically for every larger fuel). -/
def parseGo : Nat → PFn → CState → Option CState
  | 0, _, _ => none
  | f + 1, .pprim, st =>
    -- if (match(TOKEN_BANG) || match(TOKEN_MINUS)) { op = previous.type; recurse; emit }
    let (mBang, st1) := matchTok .BANG st
    if mBang then
      match parseGo f .pprim st1 with
      | none => none
      | some st2 => some (emitByteC opNot st2.previous.line st2)
    else
    let (mMinus, st1) := matchTok .MINUS st
    if mMinus then
      match parseGo f .pprim st1 with
      | none => none
      | some st2 => some (emitByteC opNegate st2.previous.line st2)
    else
    let (mFalse, st1) := matchTok .FALSE st
    if mFalse then some (emitByteC opFalse st1.previous.line st1) else
    let (mTrue, st1) := matchTok .TRUE st
    if mTrue then some (emitByteC opTrue st1.previous.line st1) else
    let (mNil, st1) := matchTok .NIL st
    if mNil then some (emitByteC opNil st1.previous.line st1) else
    let (mNum, st1) := matchTok .NUMBER st
    if mNum then
      some (emitConstantC (.num (parseNumber st1.previous.lexeme)) st1.previous.line st1)
    else
    let (mLP, st1) := matchTok .LEFT_PAREN st
    if mLP then
      match parseGo f .pexpr st1 with
      | none => none
      | some st2 => some (consume .RIGHT_PAREN st2)
    else
    let (mId, st1) := matchTok .IDENTIFIER st
    if mId then
      let (arg, st2) := identifierConstant st1.previous st1
      let (mEq, st3) := matchTok .EQUAL st2
      if mEq then
        match parseGo f .pexpr st3 with
        | none => none
        | some st4 => some (emitBytesC opSetGlobal arg st4.previous.line st4)
      else some (emitBytesC opGetGlobal arg st3.previous.line st3)
    else
    some (errorAtCurrent st)
  | f + 1, .pexpr, st =>
    match parseGo f .pprim st with
    | none => none
    | some st1 => parseGo f .pbinop st1
  | f + 1, .pbinop, st =>
    let (m, st1) := matchTok .STAR st
    if m then
      match parseGo f .pprim st1 with
      | none => none
      | some st2 => parseGo f .pbinop (emitByteC opMultiply st2.previous.line st2)
    else
    let (m, st1) := matchTok .SLASH st
    if m then
      match parseGo f .pprim st1 with
      | none => none
      | some st2 => parseGo f .pbinop (emitByteC opDivide st2.previous.line st2)
    else
    let (m, st1) := matchTok .PLUS st
    if m then
      match parseGo f .pprim st1 with
      | none => none
      | some st2 => parseGo f .pbinop (emitByteC opAdd st2.previous.line st2)
    else
    let (m, st1) := matchTok .MINUS st
    if m then
      match parseGo f .pprim st1 with
      | none => none
      | some st2 => parseGo f .pbinop (emitByteC opSubtract st2.previous.line st2)
    else
    let (m, st1) := matchTok .EQUAL_EQUAL st
    if m then
      match parseGo f .pprim st1 with
      | none => none
      | some st2 => parseGo f .pbinop (emitByteC opEqual st2.previous.line st2)
    else
    let (m, st1) := matchTok .BANG_EQUAL st
    if m then
      match parseGo f .pprim st1 with
      | none => none
      | some st2 =>
        parseGo f .pbinop (emitByteC opNot st2.previous.line (emitByteC opEqual st2.previous.line st2))
    else
    let (m, st1) := matchTok .LESS st
    if m then
      match parseGo f .pprim st1 with
      | none => none
      | some st2 => parseGo f .pbinop (emitByteC opLess st2.previous.line st2)
    else
    let (m, st1) := matchTok .LESS_EQUAL st
    if m then
      match parseGo f .pprim st1 with
      | none => none
      | some st2 =>
        parseGo f .pbinop (emitByteC opNot st2.previous.line (emitByteC opGreater st2.previous.line st2))
    else
    let (m, st1) := matchTok .GREATER st
    if m then
      match parseGo f .pprim st1 with
      | none => none
      | some st2 => parseGo f .pbinop (emitByteC opGreater st2.previous.line st2)
    else
    let (m, st1) := matchTok .GREATER_EQUAL st
    if m then
      match parseGo f .pprim st1 with
      | none => none
      | some st2 =>
        parseGo f .pbinop (emitByteC opNot st2.previous.line (emitByteC opLess st2.previous.line st2))
    else
    some st
  | f + 1, .pdecl, st =>
    let (mVar, st1) := matchTok .VAR st
    if mVar then
      let st2 := consume .IDENTIFIER st1
      let (arg, st3) := identifierConstant st2.previous st2
      let (mEq, st4) := matchTok .EQUAL st3
      let afterInit : Option CState :=
        if mEq then parseGo f .pexpr st4
        else some (emitByteC opNil st4.previous.line st4)
      match afterInit with
      | none => none
      | some st5 =>
        let st6 := consume .SEMICOLON st5
        some (emitBytesC opDefineGlobal arg st6.previous.line st6)
    else
    let (mPrint, st1) := matchTok .PRINT st
    if mPrint then
      match parseGo f .pexpr st1 with
      | none => none
      | some st2 =>
        let st3 := consume .SEMICOLON st2
        some (emitByteC opPrint st3.previous.line st3)
    else
    let (mIf, st1) := matchTok .IF st
    if mIf then
      let st2 := consume .LEFT_PAREN st1
      match parseGo f .pexpr st2 with
      | none => none
      | some st3 =>
        let st4 := consume .RIGHT_PAREN st3
        let (st5, thenJump) := emitJumpC opJumpIfFalse st4.previous.line st4
        let st6 := emitByteC opPop st5.previous.line st5
        match parseGo f .pdecl st6 with
        | none => none
        | some st7 =>
          let (st8, elseJump) := emitJumpC opJump st7.previous.line st7
          let st9 := patchJumpC thenJump st8
          let st10 := emitByteC opPop st9.previous.line st9
          let (mElse, st11) := matchTok .ELSE st10
          let afterElse : Option CState :=
            if mElse then parseGo f .pdecl st11 else some st11
          match afterElse with
          | none => none
          | some st12 => some (patchJumpC elseJump st12)
    else
    let (mWhile, st1) := matchTok .WHILE st
    if mWhile then
      let loopStart := st1.chunk.code.length
      let st2 := consume .LEFT_PAREN st1
      match parseGo f .pexpr st2 with
      | none => none
      | some st3 =>
        let st4 := consume .RIGHT_PAREN st3
        let (st5, exitJump) := emitJumpC opJumpIfFalse st4.previous.line st4
        let st6 := emitByteC opPop st5.previous.line st5
        match parseGo f .pdecl st6 with
        | none => none
        | some st7 =>
          -- int offset = loopStart - compilingChunk->count - 2;  (negative here)
          let offset : Int := (loopStart : Int) - (st7.chunk.code.length : Int) - 2
          let (hi, lo) := encode16 offset
          let st8 := emitByteC opLoop st7.previous.line st7
          let st9 := emitByteC hi st8.previous.line st8
          let st10 := emitByteC lo st9.previous.line st9
          let st11 := patchJumpC exitJump st10
          some (emitByteC opPop st11.previous.line st11)
    else
    let (mBrace, st1) := matchTok .LEFT_BRACE st
    if mBrace then
      match parseGo f .pblock st1 with
      | none => none
      | some st2 => some (consume .RIGHT_BRACE st2)
    else
      match parseGo f .pexpr st with
      | none => none
      | some st1 =>
        let st2 := consume .SEMICOLON st1
        some (emitByteC opPop st2.previous.line st2)
  | f + 1, .pblock, st =>
    if st.current.ttype ≠ .RIGHT_BRACE && !st.hadError then
      match parseGo f .pdecl st with
      | none => none
      | some st1 => parseGo f .pblock st1
    else some st

/-- compiler.c `compile`'s top-level loop: `while (!match(TOKEN_EOF))
declaration();` then `emitByte(OP_RETURN); return !parser.hadError;`.
`none` = fuel exhausted; a source on which this is `none` for every fuel is
one on which the C loop never terminates. -/
def compileGo : Nat → CState → Option (Chunk × Bool)
  | 0, _ => none
  | f + 1, st =>
    let (m, st1) := matchTok .EOF st
    if m then
      let st2 := emitByteC opReturn st1.previous.line st1
      some (st2.chunk, !st2.hadError)
    else
      match parseGo f .pdecl st1 with
      | none => none
      | some st2 => compileGo f st2

/-- compiler.c `compile` entry: `initScanner`, clear flags, one priming
`advance`.  The C parser's `current`/`previous` are uninitialised before that
first `advance`; the dummy token is never read before being overwritten. -/
def initCState (source : String) : CState :=
  let dummy : Token := ⟨.EOF, [], 0⟩
  advance { scanner := ⟨source.toList, 1⟩, current := dummy, previous := dummy,
            hadError := false, panicMode := false, chunk := initChunk, nextId := 0 }

def compileModel (source : String) (fuel : Nat) : Option (Chunk × Bool) :=
  compileGo fuel (initCState source)

end Clox

namespace Clox

/-! ## Virtual machine (vm.c) -/

/-- vm.c `stringsEqual`: pointer fast path, then length + `memcmp`. -/
def stringsEqual (a b : ObjString) : Bool :=
  a == b || (a.chars.length == b.chars.length && a.chars == b.chars)

/-- vm.c `getGlobal`: first entry (in insertion order) whose stored name
compares equal with `stringsEqual`. -/
def getGlobal : List (ObjString × Value) → ObjString → Option Value
  | [], _ => none
  | (n, v) :: rest, name => if stringsEqual n name then some v else getGlobal rest name

/-- The in-place update of vm.c `setGlobal`'s scan loop: the first matching
entry keeps its stored name and gets the new value. -/
def updateFirst : List (ObjString × Value) → ObjString → Value → List (ObjString × Value)
  | [], _, _ => []
  | (n, v0) :: rest, name, v =>
    if stringsEqual n name then (n, v) :: rest
    else (n, v0) :: updateFirst rest name v

/-- vm.c `setGlobal`: update the first match; otherwise append only while
`globalCount < MAX_GLOBALS` (= 256) — a full table drops the entry silently. -/
def setGlobal (g : List (ObjString × Value)) (name : ObjString) (v : Value) :
    List (ObjString × Value) :=
  match getGlobal g name with
  | some _ => updateFirst g name v
  | none => if g.length < 256 then g ++ [(name, v)] else g

/-- The C read `AS_NUMBER(v)` of the union's `number` field when the stored
variant is not a number (used by OP_DIVIDE's zero test before any type
check).  `NIL_VAL` explicitly initialises the field to 0; for booleans and
objects the read bits are indeterminate in C, modelled here by an arbitrary
nonzero value on which no theorem below depends. -/
def punnedNumber : Value → Rat
  | .num q => q
  | .vnil => 0
  | _ => 1

/-- value.c `printValue` via `printf("%g", ...)` for numbers: integral doubles
of small magnitude print as plain decimal integers — the only case any
theorem exercises.  Non-integral rationals get a best-effort rendering (the
`%g` rounding of such doubles is not modelled). -/
def formatValue : Value → String
  | .num q => if q.den = 1 then toString q.num else toString q.num ++ "/" ++ toString q.den
  | .vbool true => "true"
  | .vbool false => "false"
  | .vnil => "nil"
  | .obj s => String.mk s.chars

/-- vm.c `VM` state during `run` plus the stdout lines printed so far. -/
structure VMState where
  chunk : Chunk
  ip : Nat
  stack : List Value          -- head = top of stack
  globals : List (ObjString × Value)
  output : List String
deriving DecidableEq, Repr

/-- Result of executing one dispatch iteration.  `stuck` marks behaviour that
is undefined in C: instruction fetch or operand read outside `code`,
`pop`/`peek` with `stackTop == 0`, `OP_LOOP` moving `ip` before the chunk,
or a global-name constant that is not a string. -/
inductive StepRes where
  | next (st : VMState)
  | halt                       -- OP_RETURN: INTERPRET_OK
  | err (msg : String)         -- runtimeError(...): INTERPRET_RUNTIME_ERROR
  | stuck
deriving DecidableEq, Repr

/-- One iteration of the vm.c `run` dispatch loop (the `switch` on the
fetched opcode, written with the numeric opcode values of the `OpCode`
enum; see the `op...` definitions above for the correspondence). -/
def stepVM (st : VMState) : StepRes :=
  match st.chunk.code.get? st.ip with
  | none => .stuck
  | some op =>
    match op with
    | 0 =>  -- OP_CONSTANT
      match st.chunk.code.get? (st.ip + 1) with
      | none => .stuck
      | some k =>
        match st.chunk.constants.get? k with
        | none => .stuck
        | some v => .next { st with ip := st.ip + 2, stack := v :: st.stack }
    | 1 => .next { st with ip := st.ip + 1, stack := .vnil :: st.stack }          -- OP_NIL
    | 2 => .next { st with ip := st.ip + 1, stack := .vbool true :: st.stack }    -- OP_TRUE
    | 3 => .next { st with ip := st.ip + 1, stack := .vbool false :: st.stack }   -- OP_FALSE
    | 4 =>  -- OP_POP
      match st.stack with
      | _ :: rest => .next { st with ip := st.ip + 1, stack := rest }
      | [] => .stuck
    | 7 =>  -- OP_GET_GLOBAL
      match st.chunk.code.get? (st.ip + 1) with
      | none => .stuck
      | some k =>
        match st.chunk.constants.get? k with
        | some (.obj name) =>
          match getGlobal st.globals name with
          | none => .err ("Undefined variable '" ++ String.mk name.chars ++ "'.")
          | some v => .next { st with ip := st.ip + 2, stack := v :: st.stack }
        | _ => .stuck
    | 8 =>  -- OP_DEFINE_GLOBAL
      match st.chunk.code.get? (st.ip + 1) with
      | none => .stuck
      | some k =>
        match st.chunk.constants.get? k with
        | some (.obj name) =>
          match st.stack with
          | v :: rest =>
            .next { st with ip := st.ip + 2, stack := rest
                          , globals := setGlobal st.globals name v }
          | [] => .stuck
        | _ => .stuck
    | 9 =>  -- OP_SET_GLOBAL
      match st.chunk.code.get? (st.ip + 1) with
      | none => .stuck
      | some k =>
        match st.chunk.constants.get? k with
        | some (.obj name) =>
          match st.stack with
          | v :: rest =>
            match getGlobal st.globals name with
            | none => .err ("Undefined variable '" ++ String.mk name.chars ++ "'.")
            | some _ =>
              .next { st with ip := st.ip + 2, stack := v :: rest
                            , globals := setGlobal st.globals name v }
          | [] => .stuck
        | _ => .stuck
    | 10 =>  -- OP_EQUAL
      match st.stack with
      | b :: a :: rest =>
        .next { st with ip := st.ip + 1, stack := .vbool (valuesEqual a b) :: rest }
      | _ => .stuck
    | 11 =>  -- OP_GREATER: BINARY_OP(>)
      match st.stack with
      | .num b :: .num a :: rest =>
        .next { st with ip := st.ip + 1, stack := .vbool (decide (a > b)) :: rest }
      | _ :: _ :: _ => .err "Operands must be numbers."
      | _ => .stuck
    | 12 =>  -- OP_LESS: BINARY_OP(<)
      match st.stack with
      | .num b :: .num a :: rest =>
        .next { st with ip := st.ip + 1, stack := .vbool (decide (a < b)) :: rest }
      | _ :: _ :: _ => .err "Operands must be numbers."
      | _ => .stuck
    | 13 =>  -- OP_ADD (numbers only in this dialect)
      match st.stack with
      | .num b :: .num a :: rest =>
        .next { st with ip := st.ip + 1, stack := .num (a + b) :: rest }
      | _ :: _ :: _ => .err "Operands must be numbers."
      | _ => .stuck
    | 14 =>  -- OP_SUBTRACT: BINARY_OP(-)
      match st.stack with
      | .num b :: .num a :: rest =>
        .next { st with ip := st.ip + 1, stack := .num (a - b) :: rest }
      | _ :: _ :: _ => .err "Operands must be numbers."
      | _ => .stuck
    | 15 =>  -- OP_MULTIPLY: BINARY_OP(*)
      match st.stack with
      | .num b :: .num a :: rest =>
        .next { st with ip := st.ip + 1, stack := .num (a * b) :: rest }
      | _ :: _ :: _ => .err "Operands must be numbers."
      | _ => .stuck
    | 16 =>  -- OP_DIVIDE:
      -- if (AS_NUMBER(peek(0)) == 0) { runtimeError("Division by zero."); ... }
      -- BINARY_OP(/)   -- the zero test comes BEFORE the operand-type check
      match st.stack with
      | b :: rest =>
        if punnedNumber b = 0 then .err "Division by zero."
        else
          match b, rest with
          | .num bq, .num a :: rest2 =>
            .next { st with ip := st.ip + 1, stack := .num (a / bq) :: rest2 }
          | _, _ :: _ => .err "Operands must be numbers."
          | _, [] => .stuck
      | [] => .stuck
    | 17 =>  -- OP_NOT
      match st.stack with
      | v :: rest =>
        .next { st with ip := st.ip + 1, stack := .vbool (!isTruthy v) :: rest }
      | [] => .stuck
    | 18 =>  -- OP_NEGATE
      match st.stack with
      | .num a :: rest => .next { st with ip := st.ip + 1, stack := .num (-a) :: rest }
      | _ :: _ => .err "Operand must be a number."
      | [] => .stuck
    | 19 =>  -- OP_PRINT
      match st.stack with
      | v :: rest =>
        .next { st with ip := st.ip + 1, stack := rest
                      , output := st.output ++ [formatValue v] }
      | [] => .stuck
    | 20 =>  -- OP_JUMP
      match st.chunk.code.get? (st.ip + 1), st.chunk.code.get? (st.ip + 2) with
      | some hi, some lo => .next { st with ip := st.ip + 3 + (hi * 256 + lo) }
      | _, _ => .stuck
    | 21 =>  -- OP_JUMP_IF_FALSE: pops the condition only on the falsy path
      match st.chunk.code.get? (st.ip + 1), st.chunk.code.get? (st.ip + 2) with
      | some hi, some lo =>
        match st.stack with
        | v :: rest =>
          if isTruthy v then .next { st with ip := st.ip + 3 }
          else .next { st with ip := st.ip + 3 + (hi * 256 + lo), stack := rest }
        | [] => .stuck
      | _, _ => .stuck
    | 22 =>  -- OP_LOOP: vm.ip -= offset; moving before code[0] is undefined
      match st.chunk.code.get? (st.ip + 1), st.chunk.code.get? (st.ip + 2) with
      | some hi, some lo =>
        let offset := hi * 256 + lo
        if offset ≤ st.ip + 3 then .next { st with ip := st.ip + 3 - offset }
        else .stuck
      | _, _ => .stuck
    | 23 => .halt  -- OP_RETURN
    | _ =>
      -- opcode with no case in the switch (OP_GET_LOCAL = 5, OP_SET_LOCAL = 6,
      -- or junk): the C switch does nothing; the loop continues after the fetch
      .next { st with ip := st.ip + 1 }

/-- Final outcome of an `interpret` call (§6.3), with the stdout lines.
`ub` marks a run that reached C-undefined behaviour (see `StepRes.stuck`);
`timeout` is the model artifact of exhausted fuel. -/
inductive Outcome where
  | ok (out : List String)
  | compileError
  | rtErr (msg : String) (out : List String)
  | ub (out : List String)
  | timeout
deriving DecidableEq, Repr

/-- vm.c `run`: iterate `stepVM` until halt/error, with fuel. -/
def runF : Nat → VMState → Outcome × VMState
  | 0, st => (.timeout, st)
  | f + 1, st =>
    match stepVM st with
    | .next st' => runF f st'
    | .halt => (.ok st.output, st)
    | .err m => (.rtErr m st.output, st)
    | .stuck => (.ub st.output, st)

/-- The process-wide mutable VM state that persists across `interpret` calls:
the operand stack (vm.stack/stackTop) and the globals table. -/
structure VMPersist where
  stack : List Value
  globals : List (ObjString × Value)
deriving DecidableEq, Repr

/-- vm.c `initVM`: `resetStack()` (stackTop = 0) and `globalCount = 0`;
everything `interpret` later reads from the persistent state is cleared. -/
def initVMp (_p : VMPersist) : VMPersist := ⟨[], []⟩

/-- vm.c `interpret`: compile into a fresh chunk; on compile failure return
`INTERPRET_COMPILE_ERROR`; otherwise run from `ip = code` with the persistent
stack and globals, returning the outcome and the state they are left in. -/
def interpretWith (p : VMPersist) (source : String) (cfuel rfuel : Nat) :
    Outcome × VMPersist :=
  match compileModel source cfuel with
  | none => (.timeout, p)
  | some (ch, good) =>
    if good then
      let (o, stF) := runF rfuel
        { chunk := ch, ip := 0, stack := p.stack, globals := p.globals, output := [] }
      (o, ⟨stF.stack, stF.globals⟩)
    else (.compileError, p)

/-- `interpret` straight after `initVM()`. -/
def interpretModel (source : String) (cfuel rfuel : Nat) : Outcome :=
  (interpretWith ⟨[], []⟩ source cfuel rfuel).1

end Clox

namespace Clox

/-! ## Witness-construction material -/

/-- A globals-table entry with a distinct allocation id and distinct decimal
name for each `i`; used to build a full (256-entry) globals table. -/
def natName (i : Nat) : ObjString := ⟨i, Nat.toDigits 10 i⟩

/-- A globals table holding exactly `MAX_GLOBALS` = 256 distinct names. -/
def fullGlobals : List (ObjString × Value) :=
  (List.range 256).map (fun i => (natName i, Value.vnil))

/-! ## Helper lemmas -/

theorem errorAt_current (t : Token) (st : CState) : (errorAt t st).current = st.current := by
  unfold errorAt; split <;> rfl

theorem errorAtCurrent_current (st : CState) : (errorAtCurrent st).current = st.current :=
  errorAt_current _ _

theorem stringsEqual_iff (a b : ObjString) : stringsEqual a b = true ↔ a.chars = b.chars := by
  simp only [stringsEqual, Bool.or_eq_true, Bool.and_eq_true, beq_iff_eq]
  constructor
  · rintro (rfl | ⟨-, h⟩)
    · rfl
    · exact h
  · intro h
    exact Or.inr ⟨by rw [h], h⟩

end Clox

namespace Clox

/-! ## Claim theorems -/

/-- C5: all binary operators are parsed left-associatively at a single
precedence level, so `print 1 + 2 * 3;` evaluates `(1 + 2) * 3` and prints
`9` (with result `Ok`). -/
theorem flat_precedence_prints_nine :
    interpretModel "print 1 + 2 * 3;" 99 199 = .ok ["9"] := by
  with_unfolding_all rfl

/-- C6: the globals table is keyed by string content (`stringsEqual` falls
back to a length+memcmp comparison), so the two occurrences of `a` (and of
`b`) — which `copyString` allocates as distinct `ObjString`s, ids 0/2 and
1/3 in the constant pool below — resolve to the same global, and
`var a = 5; var b = 10; print a + b;` returns `Ok` printing `15`. -/
theorem globals_keyed_by_string_content :
    interpretModel "var a = 5; var b = 10; print a + b;" 99 199 = .ok ["15"] ∧
    (compileModel "var a = 5; var b = 10; print a + b;" 99).map
        (fun p => (p.1.constants.get? 0, p.1.constants.get? 4)) =
      some (some (.obj ⟨0, ['a']⟩), some (.obj ⟨2, ['a']⟩)) ∧
    (∀ a b : ObjString, stringsEqual a b = true ↔ a.chars = b.chars) :=
  ⟨by with_unfolding_all rfl, by with_unfolding_all rfl, stringsEqual_iff⟩

/-- C1 (code bug): the compiler computes the `OP_LOOP` operand as
`loopStart - count - 2`, a negative number whose two's-complement low 16
bits (`0xFFEA` = 65514 here) the VM then *subtracts* from `ip` as an
unsigned quantity, moving `ip` far before the start of the chunk instead of
back to `loop_start`.  Interpreting
`var i = 0; while (i < 3) { print i; i = i + 1; }` therefore prints `0`
once and then performs an out-of-bounds instruction fetch (undefined
behaviour, `Outcome.ub`) — never `Ok` with output `0,1,2`.  The second
conjunct exhibits the emitted tail of the chunk: `OP_LOOP 0xFF 0xEA`,
`OP_POP`, `OP_RETURN`. -/
theorem while_back_jump_leaves_chunk :
    interpretModel "var i = 0; while (i < 3) { print i; i = i + 1; }" 99 199 =
      .ub ["0"] ∧
    (compileModel "var i = 0; while (i < 3) { print i; i = i + 1; }" 99).map
        (fun p => p.1.code.drop 24) = some [opLoop, 0xff, 0xea, opPop, opReturn] :=
  ⟨by with_unfolding_all rfl, by with_unfolding_all rfl⟩

/-- C2 (code bug): on a falsy condition `OP_JUMP_IF_FALSE` pops the
condition *and* jumps to the `OP_POP` the compiler emitted at the jump
target, so that `OP_POP` executes with an empty operand stack
(`stackTop` becomes -1 in C).  For the runtime-error-free program
`if (false) print 1; else print 2;` the model therefore reaches a pop on an
empty stack (`Outcome.ub`) rather than completing with an empty stack at
`OP_RETURN`.  The second conjunct shows the compiled code: the
`OP_JUMP_IF_FALSE` at offset 1 carries displacement 7, which lands exactly
on the `OP_POP` at offset 11. -/
theorem falsy_branch_pops_empty_stack :
    interpretModel "if (false) print 1; else print 2;" 99 199 = .ub [] ∧
    (compileModel "if (false) print 1; else print 2;" 99).map (fun p => p.1.code) =
      some [opFalse, opJumpIfFalse, 0, 7, opPop, opConstant, 0, opPrint,
            opJump, 0, 4, opPop, opConstant, 1, opPrint, opReturn] :=
  ⟨by with_unfolding_all rfl, by with_unfolding_all rfl⟩

/-- C9: `initVM` (`resetStack()` and `globalCount = 0`) clears every piece of
process-wide state that `interpret` reads, so two `interpret` calls on the
same source from *any* two prior persistent states — in particular the state
the first call left behind — produce identical outcomes (same printed output
and same result). -/
theorem interpret_deterministic_after_init (p1 p2 : VMPersist) (source : String)
    (cfuel rfuel : Nat) :
    interpretWith (initVMp p1) source cfuel rfuel =
      interpretWith (initVMp p2) source cfuel rfuel := by
  rfl

/-- C4 (counterexample): with operands `true / 0` — divisor `Number(0)` on
top of the stack, non-number dividend below — `OP_DIVIDE` reports
`Division by zero.`, not the `Operands must be numbers.` that a
numeric-check-first order would produce: the zero test precedes the numeric
check. -/
theorem divide_zero_test_first_cex :
    interpretModel "print true / 0;" 99 199 = .rtErr "Division by zero." [] ∧
    Outcome.rtErr "Division by zero." [] ≠ Outcome.rtErr "Operands must be numbers." [] :=
  ⟨by with_unfolding_all rfl, by decide⟩

end Clox

namespace Clox

/-- C8: `addConstant` never fails and `emitConstant` emits the constant's
pool index cast to a byte — i.e. reduced mod 256 — so a chunk that already
holds 256 constants accepts a 257th: its operand byte is `length % 256`
(silent truncation), and no compile-error flag is touched (second
conjunct: `emitConstantC` leaves `hadError`/`panicMode` unchanged). -/
theorem emit_constant_truncates_index_mod_256 :
    (∀ (c : Chunk) (v : Value) (line : Nat),
       emitConstant c v line =
         { code := c.code ++ [opConstant, c.constants.length % 256]
         , lines := c.lines ++ [line, line]
         , constants := c.constants ++ [v] }) ∧
    (∀ (v : Value) (line : Nat) (st : CState),
       (emitConstantC v line st).hadError = st.hadError ∧
       (emitConstantC v line st).panicMode = st.panicMode) := by
  constructor
  · intro c v line
    cases c with
    | mk code lines constants => simp [emitConstant, addConstant, writeChunk]
  · intro v line st
    exact ⟨rfl, rfl⟩

/-- C4 (amended): `OP_DIVIDE` runs its zero test on the divisor *before* the
numeric check: a divisor of `Number(0)` yields `Division by zero.` whatever
the dividend is; only a divisor that is a nonzero `Number` reaches the
numeric check, which reports `Operands must be numbers.` when the dividend
is not a `Number` and otherwise pops `b`, pops `a`, and pushes
`Number(a/b)`.  (When the divisor itself is not a `Number`, the C code's
zero test reads the union's number field type-punned — indeterminate bits —
so no claim is made for that case.) -/
theorem divide_zero_test_precedes_numeric_check :
    ∀ (st : VMState) (b a : Value) (rest : List Value),
      st.chunk.code.get? st.ip = some opDivide →
      st.stack = b :: a :: rest →
      ((b = .num 0 → stepVM st = .err "Division by zero.") ∧
       (∀ q : Rat, b = .num q → q ≠ 0 → (∀ p : Rat, a ≠ .num p) →
          stepVM st = .err "Operands must be numbers.") ∧
       (∀ q p : Rat, b = .num q → q ≠ 0 → a = .num p →
          stepVM st = .next { st with ip := st.ip + 1, stack := .num (p / q) :: rest })) := by
  intro st b a rest hcode hstack
  simp only [List.get?_eq_getElem?, opDivide] at hcode
  refine ⟨?_, ?_, ?_⟩
  · rintro rfl
    simp [stepVM, hcode, hstack, punnedNumber]
  · rintro q rfl hq ha
    cases a with
    | num p => exact absurd rfl (ha p)
    | vbool bb => simp [stepVM, hcode, hstack, punnedNumber, hq]
    | vnil => simp [stepVM, hcode, hstack, punnedNumber, hq]
    | obj s => simp [stepVM, hcode, hstack, punnedNumber, hq]
  · rintro q p rfl hq rfl
    simp [stepVM, hcode, hstack, punnedNumber, hq]

theorem divide_zero_test_precedes_numeric_check_witness :
    stepVM ⟨⟨[opDivide], [1], []⟩, 0, [.num 2, .num 6], [], []⟩ =
      .next ⟨⟨[opDivide], [1], []⟩, 1, [.num 3], [], []⟩ := by
  have h := (divide_zero_test_precedes_numeric_check
      ⟨⟨[opDivide], [1], []⟩, 0, [.num 2, .num 6], [], []⟩ (.num 2) (.num 6) [] rfl rfl).2.2
      2 6 rfl (by norm_num) rfl
  simpa [show (6 : Rat) / 2 = 3 by norm_num] using h

end Clox

namespace Clox

/-- C7: `OP_GET_GLOBAL` and `OP_SET_GLOBAL` raise
`Undefined variable 'N'.` exactly when the name is absent from the globals
table; when present, `OP_GET_GLOBAL` pushes the stored value, and
`OP_SET_GLOBAL` pops the value, stores it, and pushes it back (assignment
yields its right-hand side). -/
theorem get_set_global_semantics :
    (∀ (st : VMState) (k : Nat) (name : ObjString),
       st.chunk.code.get? st.ip = some opGetGlobal →
       st.chunk.code.get? (st.ip + 1) = some k →
       st.chunk.constants.get? k = some (.obj name) →
       (getGlobal st.globals name = none →
          stepVM st = .err ("Undefined variable '" ++ String.mk name.chars ++ "'.")) ∧
       (∀ v : Value, getGlobal st.globals name = some v →
          stepVM st = .next { st with ip := st.ip + 2, stack := v :: st.stack })) ∧
    (∀ (st : VMState) (k : Nat) (name : ObjString) (v : Value) (rest : List Value),
       st.chunk.code.get? st.ip = some opSetGlobal →
       st.chunk.code.get? (st.ip + 1) = some k →
       st.chunk.constants.get? k = some (.obj name) →
       st.stack = v :: rest →
       (getGlobal st.globals name = none →
          stepVM st = .err ("Undefined variable '" ++ String.mk name.chars ++ "'.")) ∧
       (∀ w : Value, getGlobal st.globals name = some w →
          stepVM st = .next { st with ip := st.ip + 2, stack := v :: rest, globals := setGlobal st.globals name v })) := by
  constructor
  · intro st k name hcode hk hname
    simp only [List.get?_eq_getElem?, opGetGlobal] at hcode hk hname
    constructor
    · intro habs
      simp [stepVM, hcode, hk, hname, habs]
    · intro v hgot
      simp [stepVM, hcode, hk, hname, hgot]
  · intro st k name v rest hcode hk hname hstack
    simp only [List.get?_eq_getElem?, opSetGlobal] at hcode hk hname
    constructor
    · intro habs
      simp [stepVM, hcode, hk, hname, hstack, habs]
    · intro w hgot
      simp [stepVM, hcode, hk, hname, hstack, hgot]

theorem get_set_global_semantics_witness :
    stepVM ⟨⟨[opGetGlobal, 0], [1, 1], [.obj ⟨5, ['x']⟩]⟩, 0, [],
            [(⟨9, ['x']⟩, .num 4)], []⟩ =
      .next ⟨⟨[opGetGlobal, 0], [1, 1], [.obj ⟨5, ['x']⟩]⟩, 2, [.num 4],
             [(⟨9, ['x']⟩, .num 4)], []⟩ ∧
    stepVM ⟨⟨[opSetGlobal, 0], [1, 1], [.obj ⟨5, ['x']⟩]⟩, 0, [.num 8],
            [(⟨9, ['x']⟩, .num 4)], []⟩ =
      .next ⟨⟨[opSetGlobal, 0], [1, 1], [.obj ⟨5, ['x']⟩]⟩, 2, [.num 8],
             [(⟨9, ['x']⟩, .num 8)], []⟩ ∧
    stepVM ⟨⟨[opGetGlobal, 0], [1, 1], [.obj ⟨5, ['x']⟩]⟩, 0, [], [], []⟩ =
      .err ("Undefined variable '" ++ String.mk ['x'] ++ "'.") := by
  refine ⟨?_, ?_, ?_⟩
  · have h := ((get_set_global_semantics.1
        ⟨⟨[opGetGlobal, 0], [1, 1], [.obj ⟨5, ['x']⟩]⟩, 0, [],
         [(⟨9, ['x']⟩, .num 4)], []⟩ 0 ⟨5, ['x']⟩ rfl rfl rfl).2 (.num 4) (by rfl))
    exact h.trans (by with_unfolding_all rfl)
  · have h := ((get_set_global_semantics.2
        ⟨⟨[opSetGlobal, 0], [1, 1], [.obj ⟨5, ['x']⟩]⟩, 0, [.num 8],
         [(⟨9, ['x']⟩, .num 4)], []⟩ 0 ⟨5, ['x']⟩ (.num 8) [] rfl rfl rfl rfl).2
        (.num 4) (by rfl))
    exact h.trans (by with_unfolding_all rfl)
  · exact ((get_set_global_semantics.1
        ⟨⟨[opGetGlobal, 0], [1, 1], [.obj ⟨5, ['x']⟩]⟩, 0, [], [], []⟩
        0 ⟨5, ['x']⟩ rfl rfl rfl).1 rfl)

/-- When the scan of `setGlobal` finds no match and the table is full
(`globalCount` is not below `MAX_GLOBALS` = 256), the entry is dropped:
the table is returned unchanged. -/
theorem setGlobal_full_drops (g : List (ObjString × Value)) (name : ObjString) (v : Value)
    (h1 : getGlobal g name = none) (h2 : ¬ g.length < 256) :
    setGlobal g name v = g := by
  simp [setGlobal, h1, h2]

/-- C10: with 256 distinct names already in the globals table, executing
`OP_DEFINE_GLOBAL` for a fresh 257th name pops its value but records
nothing — no error of any kind, the table is returned unchanged — so a
subsequent `OP_GET_GLOBAL` of that name raises
`Undefined variable 'N'.`. -/
theorem define_global_dropped_when_table_full :
    ∀ (st : VMState) (k : Nat) (name : ObjString) (v : Value) (rest : List Value),
      st.chunk.code.get? st.ip = some opDefineGlobal →
      st.chunk.code.get? (st.ip + 1) = some k →
      st.chunk.constants.get? k = some (.obj name) →
      st.stack = v :: rest →
      st.globals.length = 256 →
      getGlobal st.globals name = none →
      (stepVM st = .next { st with ip := st.ip + 2, stack := rest } ∧
       setGlobal st.globals name v = st.globals ∧
       (∀ (st2 : VMState) (k2 : Nat),
          st2.chunk.code.get? st2.ip = some opGetGlobal →
          st2.chunk.code.get? (st2.ip + 1) = some k2 →
          st2.chunk.constants.get? k2 = some (.obj name) →
          st2.globals = st.globals →
          stepVM st2 = .err ("Undefined variable '" ++ String.mk name.chars ++ "'."))) := by
  intro st k name v rest hcode hk hname hstack hlen habs
  have hfull : setGlobal st.globals name v = st.globals :=
    setGlobal_full_drops _ _ _ habs (by rw [hlen]; exact Nat.lt_irrefl 256)
  simp only [List.get?_eq_getElem?, opDefineGlobal] at hcode hk hname
  refine ⟨?_, hfull, ?_⟩
  · simp [stepVM, hcode, hk, hname, hstack, hfull]
  · intro st2 k2 hcode2 hk2 hname2 hg2
    simp only [List.get?_eq_getElem?, opGetGlobal] at hcode2 hk2 hname2
    simp [stepVM, hcode2, hk2, hname2, hg2, habs]

set_option maxRecDepth 10000 in
theorem define_global_dropped_when_table_full_witness :
    stepVM ⟨⟨[opDefineGlobal, 0], [1, 1], [.obj ⟨999, ['z']⟩]⟩, 0, [.num 7],
            fullGlobals, []⟩ =
      .next ⟨⟨[opDefineGlobal, 0], [1, 1], [.obj ⟨999, ['z']⟩]⟩, 2, [],
             fullGlobals, []⟩ ∧
    stepVM ⟨⟨[opGetGlobal, 0], [1, 1], [.obj ⟨999, ['z']⟩]⟩, 0, [], fullGlobals, []⟩ =
      .err ("Undefined variable '" ++ String.mk ['z'] ++ "'.") := by
  have h := define_global_dropped_when_table_full
      ⟨⟨[opDefineGlobal, 0], [1, 1], [.obj ⟨999, ['z']⟩]⟩, 0, [.num 7], fullGlobals, []⟩
      0 ⟨999, ['z']⟩ (.num 7) [] rfl rfl rfl rfl (by rfl) (by rfl)
  refine ⟨h.1.trans (by with_unfolding_all rfl), ?_⟩
  exact h.2.2 ⟨⟨[opGetGlobal, 0], [1, 1], [.obj ⟨999, ['z']⟩]⟩, 0, [], fullGlobals, []⟩
      0 rfl rfl rfl rfl

end Clox

namespace Clox

/-! ## Non-termination of `compile` on an unexpected `)`:
with the current token a `)` (which starts no declaration and no
expression), `declaration` reports `Expect expression.` and fails the `;`
consume, neither of which advances the scanner, so `compile`'s top-level
loop re-parses the same token forever. -/

theorem matchTok_of_ne {st : CState} {t : TokenType} (h : st.current.ttype ≠ t) :
    matchTok t st = (false, st) := by
  simp [matchTok, h]

theorem consume_of_ne {st : CState} {t : TokenType} (h : st.current.ttype ≠ t) :
    consume t st = errorAtCurrent st := by
  simp [consume, h]

theorem emitByteC_current (b l : Nat) (st : CState) : (emitByteC b l st).current = st.current :=
  rfl

/-- `parsePrecedence1` on a `)` current token: every match fails without
advancing and `Expect expression.` is reported. -/
theorem parseGo_pprim_rparen (f : Nat) (st : CState)
    (h : st.current.ttype = .RIGHT_PAREN) :
    parseGo f .pprim st = none ∨
      parseGo f .pprim st = some (errorAtCurrent st) := by
  cases f with
  | zero => exact Or.inl rfl
  | succ f =>
    refine Or.inr ?_
    simp [parseGo, matchTok, h]

/-- The binary-operator loop on a `)` current token exits at once. -/
theorem parseGo_pbinop_rparen (f : Nat) (st : CState)
    (h : st.current.ttype = .RIGHT_PAREN) :
    parseGo f .pbinop st = none ∨ parseGo f .pbinop st = some st := by
  cases f with
  | zero => exact Or.inl rfl
  | succ f =>
    refine Or.inr ?_
    simp [parseGo, matchTok, h]

/-- `expression` on a `)` current token reports the error and returns with
the token unconsumed. -/
theorem parseGo_pexpr_rparen (f : Nat) (st : CState)
    (h : st.current.ttype = .RIGHT_PAREN) :
    parseGo f .pexpr st = none ∨
      ∃ st1, parseGo f .pexpr st = some st1 ∧ st1.current = st.current := by
  cases f with
  | zero => exact Or.inl rfl
  | succ f =>
    rcases parseGo_pprim_rparen f st h with hp | hp
    · exact Or.inl (by simp [parseGo, hp])
    · have hc : (errorAtCurrent st).current = st.current := errorAtCurrent_current st
      rcases parseGo_pbinop_rparen f (errorAtCurrent st) (by rw [hc]; exact h) with hb | hb
      · exact Or.inl (by simp [parseGo, hp, hb])
      · exact Or.inr ⟨errorAtCurrent st, by simp [parseGo, hp, hb], hc⟩

/-- `declaration` on a `)` current token: no statement keyword matches, the
expression statement reports `Expect expression.`, the `;` consume fails,
`OP_POP` is emitted — and the current token is still the same `)`. -/
theorem parseGo_pdecl_rparen (f : Nat) (st : CState)
    (h : st.current.ttype = .RIGHT_PAREN) :
    parseGo f .pdecl st = none ∨
      ∃ st2, parseGo f .pdecl st = some st2 ∧ st2.current = st.current := by
  cases f with
  | zero => exact Or.inl rfl
  | succ f =>
    rcases parseGo_pexpr_rparen f st h with he | ⟨st1, he, hcur⟩
    · exact Or.inl (by simp [parseGo, matchTok, h, he])
    · refine Or.inr ⟨emitByteC opPop (consume .SEMICOLON st1).previous.line
        (consume .SEMICOLON st1), by simp [parseGo, matchTok, h, he], ?_⟩
      rw [emitByteC_current, consume_of_ne (by rw [hcur, h]; exact nofun)]
      rw [errorAtCurrent_current]
      exact hcur

/-- The top-level `while (!match(TOKEN_EOF)) declaration();` loop of
`compile` never terminates when the current token is a `)`: for every fuel
it is still running. -/
theorem compileGo_rparen (f : Nat) (st : CState)
    (h : st.current.ttype = .RIGHT_PAREN) : compileGo f st = none := by
  induction f generalizing st with
  | zero => rfl
  | succ f ih =>
    have hm : matchTok .EOF st = (false, st) := matchTok_of_ne (by rw [h]; exact nofun)
    rcases parseGo_pdecl_rparen f st h with hd | ⟨st2, hd, hcur⟩
    · simp [compileGo, hm, hd]
    · have hstep : compileGo (f + 1) st = compileGo f st2 := by
        simp [compileGo, hm, hd]
      rw [hstep]
      exact ih st2 (by rw [hcur]; exact h)

/-- C3 (code bug): compilation does *not* always run to completion: on the
source `)` the parse error (`Expect expression.`, then the failed `;`
consume) never advances past the `)` token, so `compile`'s top-level loop
re-parses it forever — for every fuel bound the model is still running
(`none`), i.e. the C `compile` never returns at all, let alone a success
flag. -/
theorem compile_loops_forever_on_lone_rparen :
    ∀ fuel : Nat, compileModel ")" fuel = none := by
  intro fuel
  exact compileGo_rparen fuel (initCState ")") (by with_unfolding_all rfl)

end Clox
